import Mathlib

/-!
Verification of the stock-transaction engine of the IMS inventory-management
application (server side, TypeScript/Prisma) against its natural-language
specification.

The repository contains two implementations of the engine:

* `src/Server/src/api/services/stockTransaction.service.ts` — the service the
  stock-transaction controller actually imports.  Its `createStockTransaction`
  runs the atomic database transaction and returns the created ledger row; its
  `findStockTransactions` filters/paginates the ledger with the raw `endDate`
  bound.
* `src/Server/src/api/services/auth.service.ts` — contains a second copy of
  `createStockTransaction` that, after the database transaction commits, emits
  Socket.IO events (`inventory_update`, `low_stock_alert`), and a second copy
  of `findStockTransactions` that widens a midnight `endDate` to the end of
  that day.

Both are embedded below.  The shared atomic database block (identical in both
files) is `stockTransactionTx`; `StockTransactionService` holds the plain
service, `AuthService` the event-emitting variant.

Modelling conventions:
* ids are strings (cuid generation and foreign-key integrity of the store are
  not modelled; the claims under study do not involve them);
* timestamps are naturals (milliseconds since the epoch, as in JavaScript
  `Date.getTime()`); `new Date()` becomes an explicit `now` argument;
* the Prisma store is a `Store`: an association list of inventory levels keyed
  by `(itemId, locationId)` plus the append-only ledger list;
* `prisma.$transaction` becomes `prismaTransaction`: the callback produces a
  new store, a thrown error discards it (rollback);
* the `@updatedAt` column of `InventoryLevel` is refreshed to `now` on every
  write, as Prisma does.
-/

namespace IMS

/-- The seven transaction types of the Prisma `TransactionType` enum. -/
inductive TransactionType where
  | PURCHASE_RECEIVING
  | SALES_SHIPMENT
  | ADJUSTMENT_IN
  | ADJUSTMENT_OUT
  | TRANSFER_IN
  | TRANSFER_OUT
  | INITIAL_STOCK
deriving DecidableEq, Repr

/-- Source: `const isStockDecrease = ([TransactionType.SALES_SHIPMENT,
TransactionType.ADJUSTMENT_OUT, TransactionType.TRANSFER_OUT] as
TransactionType[]).includes(type)` (both service files). -/
def isStockDecrease (type : TransactionType) : Bool :=
  [TransactionType.SALES_SHIPMENT, TransactionType.ADJUSTMENT_OUT,
    TransactionType.TRANSFER_OUT].contains type

/-- Prisma model `InventoryLevel` (schema.prisma): current on-hand quantity of
one item at one location.  The `itemId`/`locationId` key is kept outside, in
the association list of `Store`. -/
structure InventoryLevel where
  quantity : Int
  lastRestockedAt : Option Nat
  updatedAt : Nat
deriving DecidableEq, Repr

/-- Prisma model `StockTransaction` (schema.prisma): one immutable ledger row.
`newQuantity` is the column the spec calls `resultingQuantity`. -/
structure StockTransaction where
  itemId : String
  locationId : String
  changeQuantity : Int
  newQuantity : Int
  type : TransactionType
  userId : Option String
  transactionDate : Nat
  notes : Option String
  referenceId : Option String
  createdAt : Nat
deriving DecidableEq, Repr

/-- `CreateStockTransactionInput` (stockTransaction.validator.ts): the payload
accepted by `createStockTransaction` after zod validation. -/
structure CreateStockTransactionInput where
  itemId : String
  locationId : String
  changeQuantity : Int
  type : TransactionType
  userId : Option String
  notes : Option String
  referenceId : Option String
  transactionDate : Option Nat
deriving DecidableEq, Repr

/-- The persistent store: inventory levels keyed by `(itemId, locationId)`
(unique composite key in the schema) and the append-only ledger. -/
structure Store where
  levels : List ((String × String) × InventoryLevel)
  transactions : List StockTransaction
deriving DecidableEq, Repr

def emptyStore : Store := ⟨[], []⟩

/-- `tx.inventoryLevel.findUnique({ where: { itemId_locationId } })`. -/
def findUniqueLevel (st : Store) (itemId locationId : String) :
    Option InventoryLevel :=
  (st.levels.find? (fun p => p.1 == (itemId, locationId))).map (·.2)

/-- The quantity a reader observes for a pair: the stored quantity, or 0 when
no level row exists (`inventoryLevel?.quantity ?? 0`). -/
def levelQuantity (st : Store) (k : String × String) : Int :=
  ((findUniqueLevel st k.1 k.2).map (·.quantity)).getD 0

/-- Replaces the value stored under `key` in an association list, leaving
every other entry untouched. -/
def replaceAssoc {α β : Type} [BEq α] (key : α) (v : β) :
    List (α × β) → List (α × β)
  | [] => []
  | p :: rest =>
    if p.1 == key then (p.1, v) :: replaceAssoc key v rest
    else p :: replaceAssoc key v rest

/-- `tx.inventoryLevel.upsert({ where, update, create })`: updates the row in
place when the key is present, inserts `create` otherwise; returns the row the
database now holds together with the new store. -/
def inventoryLevelUpsert (st : Store) (key : String × String)
    (update : InventoryLevel → InventoryLevel) (create : InventoryLevel) :
    InventoryLevel × Store :=
  match findUniqueLevel st key.1 key.2 with
  | some old =>
    let updated := update old
    (updated, { st with levels := replaceAssoc key updated st.levels })
  | none =>
    (create, { st with levels := st.levels ++ [(key, create)] })

/-- Errors surfaced by the engine that the claims under study exercise.
`insufficientStock` embeds `InsufficientStockError`; `notifyFailure` stands
for any exception thrown during the post-commit Socket.IO phase of the
auth.service variant (which the surrounding catch block re-throws). -/
inductive SvcError where
  | insufficientStock
  | notifyFailure
deriving DecidableEq, Repr

/-- `prisma.$transaction(callback)`: the callback runs against the store and
either commits its new store or throws, in which case every write of the
callback is rolled back and the original store survives. -/
def prismaTransaction {α : Type} (st : Store)
    (callback : Store → Except SvcError (α × Store)) :
    Except SvcError α × Store :=
  match callback st with
  | .ok (a, st2) => (.ok a, st2)
  | .error e => (.error e, st)

/-- The body of the `prisma.$transaction` callback of `createStockTransaction`
(identical in stockTransaction.service.ts and auth.service.ts): find the
level, reject a stock-decreasing change that would drive the quantity below
zero, upsert the level to `currentQuantity + changeQuantity`, append the
ledger row, and return both the row and the updated level. -/
def stockTransactionCallback (now : Nat) (data : CreateStockTransactionInput)
    (st : Store) :
    Except SvcError ((StockTransaction × InventoryLevel) × Store) :=
  let inventoryLevel := findUniqueLevel st data.itemId data.locationId
  let currentQuantity : Int := ((inventoryLevel.map (·.quantity)).getD 0)
  if isStockDecrease data.type && decide (currentQuantity + data.changeQuantity < 0) then
    .error .insufficientStock
  else
    let newQuantity := currentQuantity + data.changeQuantity
    let upserted := inventoryLevelUpsert st (data.itemId, data.locationId)
      (fun _old =>
        { quantity := newQuantity
          lastRestockedAt :=
            if 0 < data.changeQuantity then some now
            else inventoryLevel.bind (·.lastRestockedAt)
          updatedAt := now })
      { quantity := newQuantity
        lastRestockedAt := if 0 < data.changeQuantity then some now else none
        updatedAt := now }
    let updatedInventoryLevel := upserted.1
    let st1 := upserted.2
    let stockTransaction : StockTransaction :=
      { itemId := data.itemId
        locationId := data.locationId
        changeQuantity := data.changeQuantity
        newQuantity := updatedInventoryLevel.quantity
        type := data.type
        userId := data.userId
        transactionDate := data.transactionDate.getD now
        notes := data.notes
        referenceId := data.referenceId
        createdAt := now }
    .ok ((stockTransaction, updatedInventoryLevel),
      { st1 with transactions := st1.transactions ++ [stockTransaction] })

/-- The committed atomic unit shared by both service files: the
`prisma.$transaction` wrapping of `stockTransactionCallback`. -/
def stockTransactionTx (now : Nat) (st : Store)
    (data : CreateStockTransactionInput) :
    Except SvcError (StockTransaction × InventoryLevel) × Store :=
  prismaTransaction st (stockTransactionCallback now data)

end IMS

namespace IMS.StockTransactionService

/-- `createStockTransaction` of stockTransaction.service.ts: runs the atomic
unit and returns the created ledger row (the returned store is what the
database holds afterwards — unchanged when the unit threw). -/
def createStockTransaction (now : Nat) (st : Store)
    (data : CreateStockTransactionInput) :
    Except SvcError StockTransaction × Store :=
  let r := stockTransactionTx now st data
  (r.1.map (·.1), r.2)

end IMS.StockTransactionService

namespace IMS

/-- Prisma model `Item`, restricted to the fields the post-commit low-stock
check reads (`findItemById` returns the item or null). -/
structure Item where
  id : String
  sku : String
  name : String
  lowStockThreshold : Option Int
deriving DecidableEq, Repr

/-- The Socket.IO events emitted by the auth.service variant after commit.
The payload fields kept are the ones the spec names; the room bookkeeping and
the human-readable alert message are not modelled. -/
inductive SocketEvent where
  | inventoryUpdate (itemId locationId : String) (newQuantity changeQuantity : Int)
      (transactionType : TransactionType) (updatedAt : Nat)
  | lowStockAlert (itemId sku name locationId : String)
      (quantity lowStockThreshold : Int)
deriving DecidableEq, Repr

/-- Outcome model of the fallible post-commit collaborators: whether each
Socket.IO `emit` call throws, and what the `findItemById` re-read does (throw,
or return the item / null). -/
structure NotifyEnv where
  emitInventoryUpdateFails : Bool
  findItemById : Except Unit (Option Item)
  emitLowStockFails : Bool
deriving Repr

end IMS

namespace IMS.AuthService

/-- `createStockTransaction` of auth.service.ts: the same atomic unit,
followed (only after the unit committed) by the Socket.IO phase — emit
`inventory_update`, re-read the item, and emit `low_stock_alert` when the
threshold is defined and reached.  An exception anywhere in that phase is
caught by the surrounding catch block, logged and re-thrown, so the caller
gets the error; the committed store and the events already emitted remain.
Returns (what the caller gets, the store, the events emitted). -/
def createStockTransaction (env : NotifyEnv) (now : Nat) (st : Store)
    (data : CreateStockTransactionInput) :
    Except SvcError StockTransaction × Store × List SocketEvent :=
  match stockTransactionTx now st data with
  | (.error e, st2) => (.error e, st2, [])
  | (.ok (stockTransaction, updatedInventoryLevel), st2) =>
    if env.emitInventoryUpdateFails then
      (.error .notifyFailure, st2, [])
    else
      let updateEvent := SocketEvent.inventoryUpdate stockTransaction.itemId
        stockTransaction.locationId updatedInventoryLevel.quantity
        stockTransaction.changeQuantity stockTransaction.type
        updatedInventoryLevel.updatedAt
      match env.findItemById with
      | .error _ => (.error .notifyFailure, st2, [updateEvent])
      | .ok itemDetails =>
        match itemDetails with
        | none => (.ok stockTransaction, st2, [updateEvent])
        | some item =>
          match item.lowStockThreshold with
          | none => (.ok stockTransaction, st2, [updateEvent])
          | some threshold =>
            if updatedInventoryLevel.quantity ≤ threshold then
              if env.emitLowStockFails then
                (.error .notifyFailure, st2, [updateEvent])
              else
                (.ok stockTransaction, st2,
                  [updateEvent,
                   SocketEvent.lowStockAlert item.id item.sku item.name
                     stockTransaction.locationId updatedInventoryLevel.quantity
                     threshold])
            else (.ok stockTransaction, st2, [updateEvent])

end IMS.AuthService

namespace IMS

/-- Sort keys allowed by `getStockTransactionsSchema`
(`z.enum(["transactionDate", "createdAt"])`). -/
inductive SortBy where
  | transactionDate
  | createdAt
deriving DecidableEq, Repr

/-- Sort directions allowed by the schema (`z.enum(["asc", "desc"])`). -/
inductive SortOrder where
  | asc
  | desc
deriving DecidableEq, Repr

/-- `GetStockTransactionsQuery` (stockTransaction.validator.ts): the query
after zod validation, with the defaults applied. -/
structure GetStockTransactionsQuery where
  page : Nat
  limit : Nat
  itemId : Option String
  locationId : Option String
  userId : Option String
  type : Option TransactionType
  startDate : Option Nat
  endDate : Option Nat
  sortBy : SortBy
  sortOrder : SortOrder
deriving DecidableEq, Repr

/-- The raw query string fields `getStockTransactionsSchema` validates
(numbers already coerced; cuid-format checks on the id fields are not
modelled). -/
structure RawStockTransactionsQuery where
  page : Option Nat
  limit : Option Nat
  itemId : Option String
  locationId : Option String
  userId : Option String
  type : Option TransactionType
  startDate : Option Nat
  endDate : Option Nat
  sortBy : Option SortBy
  sortOrder : Option SortOrder
deriving DecidableEq, Repr

/-- `getStockTransactionsSchema` (stockTransaction.validator.ts):
`page: z.coerce.number().int().positive().optional().default(1)`,
`limit: z.coerce.number().int().positive().max(100).optional().default(20)`,
plus the refinement rejecting `endDate < startDate`. -/
def parseGetStockTransactionsQuery (raw : RawStockTransactionsQuery) :
    Except Unit GetStockTransactionsQuery :=
  let pageOk : Bool := match raw.page with
    | some p => decide (0 < p)
    | none => true
  let limitOk : Bool := match raw.limit with
    | some l => decide (0 < l) && decide (l ≤ 100)
    | none => true
  let rangeOk : Bool := match raw.startDate, raw.endDate with
    | some s, some e => decide (s ≤ e)
    | _, _ => true
  if pageOk && limitOk && rangeOk then
    .ok
      { page := raw.page.getD 1
        limit := raw.limit.getD 20
        itemId := raw.itemId
        locationId := raw.locationId
        userId := raw.userId
        type := raw.type
        startDate := raw.startDate
        endDate := raw.endDate
        sortBy := raw.sortBy.getD .transactionDate
        sortOrder := raw.sortOrder.getD .desc }
  else .error ()

/-- The Prisma `where` object built by `findStockTransactions`, as a predicate
on a ledger row: every supplied filter must hold (`gte`/`lte` on
`transactionDate`).  Parameterised on the effective upper bound since the two
service files differ there. -/
def matchesWhere (q : GetStockTransactionsQuery) (upperBound : Option Nat)
    (t : StockTransaction) : Bool :=
  (match q.itemId with | some i => t.itemId == i | none => true) &&
  (match q.locationId with | some l => t.locationId == l | none => true) &&
  (match q.userId with | some u => t.userId == some u | none => true) &&
  (match q.type with | some ty => t.type == ty | none => true) &&
  (match q.startDate with | some s => s ≤ t.transactionDate | none => true) &&
  (match upperBound with | some e => t.transactionDate ≤ e | none => true)

/-- The `orderBy: { [sortBy]: sortOrder }` comparator. -/
def sortLe (sb : SortBy) (so : SortOrder) (a b : StockTransaction) : Bool :=
  let key := fun t : StockTransaction =>
    match sb with
    | .transactionDate => t.transactionDate
    | .createdAt => t.createdAt
  match so with
  | .asc => key a ≤ key b
  | .desc => key b ≤ key a

/-- Shape of the value `findStockTransactions` resolves with. -/
structure PaginatedTransactions where
  data : List StockTransaction
  page : Nat
  limit : Nat
  totalCount : Nat
  totalPages : Nat
deriving DecidableEq, Repr

/-- `Math.ceil(totalCount / limit)` on the non-negative integers involved. -/
def mathCeilDiv (a b : Nat) : Nat := (a + b - 1) / b

/-- The query core shared by both `findStockTransactions` copies, given the
effective `transactionDate` upper bound: filter, sort, then
`skip = (page - 1) * limit` and `take = limit`, alongside the total count and
`Math.ceil(totalCount / limit)`. -/
def runFindStockTransactions (st : Store) (q : GetStockTransactionsQuery)
    (upperBound : Option Nat) : PaginatedTransactions :=
  let skip := (q.page - 1) * q.limit
  let take := q.limit
  let matching := st.transactions.filter (matchesWhere q upperBound)
  let transactions := ((matching.mergeSort (sortLe q.sortBy q.sortOrder)).drop skip).take take
  let totalCount := matching.length
  { data := transactions
    page := q.page
    limit := q.limit
    totalCount := totalCount
    totalPages := mathCeilDiv totalCount q.limit }

end IMS

namespace IMS.StockTransactionService

/-- `findStockTransactions` of stockTransaction.service.ts: the upper bound of
the date range is the supplied `endDate` itself. -/
def findStockTransactions (st : Store) (q : GetStockTransactionsQuery) :
    PaginatedTransactions :=
  runFindStockTransactions st q q.endDate

end IMS.StockTransactionService

namespace IMS.AuthService

/-- The midnight test of auth.service.ts:
`endDate.getHours() === 0 && endDate.getMinutes() === 0 &&
endDate.getSeconds() === 0` (milliseconds are not inspected). -/
def isMidnight (t : Nat) : Bool :=
  (t / 3600000) % 24 == 0 && (t / 60000) % 60 == 0 && (t / 1000) % 60 == 0

/-- `findStockTransactions` of auth.service.ts: a midnight `endDate` is
widened to `endDate + 24 * 60 * 60 * 1000 - 1` (the last millisecond of that
day) before filtering. -/
def findStockTransactions (st : Store) (q : GetStockTransactionsQuery) :
    PaginatedTransactions :=
  let inclusiveEndDate := q.endDate.map (fun e =>
    if isMidnight e then e + 24 * 60 * 60 * 1000 - 1 else e)
  runFindStockTransactions st q inclusiveEndDate

end IMS.AuthService

namespace IMS

/-- `findSpecificInventoryLevel` of inventoryLevel.service.ts: the read-side
`findUnique` on the `(itemId, locationId)` composite key (the spec calls this
read `currentLevel`). -/
def findSpecificInventoryLevel (st : Store) (itemId locationId : String) :
    Option InventoryLevel :=
  findUniqueLevel st itemId locationId

/-- The authenticated principal attached to the request by the auth
middleware (`req.user`). -/
structure AuthUser where
  id : String
deriving DecidableEq, Repr

/-- Error outcomes of the create-transaction HTTP handler. -/
inductive HandlerError where
  | notAuthenticated
  | svc (e : SvcError)
deriving DecidableEq, Repr

/-- `createStockTransactionHandler` of stockTransaction.controller.ts:
rejects an unauthenticated request, otherwise overrides the body's `userId`
with the authenticated user's id and invokes the service of
stockTransaction.service.ts. -/
def createStockTransactionHandler (user : Option AuthUser)
    (body : CreateStockTransactionInput) (now : Nat) (st : Store) :
    Except HandlerError StockTransaction × Store :=
  match user with
  | none => (.error .notAuthenticated, st)
  | some authenticatedUser =>
    let dataWithAuthenticatedUser :=
      { body with userId := some authenticatedUser.id }
    let r := StockTransactionService.createStockTransaction now st
      dataWithAuthenticatedUser
    (r.1.mapError .svc, r.2)

/-- The `(itemId, locationId)` pair a ledger row belongs to. -/
def txKey (t : StockTransaction) : String × String := (t.itemId, t.locationId)

/-- The committed ledger rows of one `(itemId, locationId)` pair, oldest
first. -/
def ledgerFor (st : Store) (k : String × String) : List StockTransaction :=
  st.transactions.filter (fun t => txKey t == k)

/-- Sum of the `changeQuantity` column over a list of ledger rows. -/
def sumChanges (l : List StockTransaction) : Int :=
  (l.map (·.changeQuantity)).sum

/-- Checks that, starting from quantity `q`, each successive ledger row's
`newQuantity` is the previous quantity plus its own `changeQuantity` — i.e.,
the recorded resulting quantities replay the change history exactly. -/
def replaysFrom : Int → List StockTransaction → Bool
  | _, [] => true
  | q, t :: rest =>
    (t.newQuantity == q + t.changeQuantity) && replaysFrom t.newQuantity rest

/-- A sequence of engine invocations, each against the store the previous one
left behind (a failed call leaves the store untouched, per
`prismaTransaction`). -/
def applyTransactions (now : Nat) :
    Store → List CreateStockTransactionInput → Store
  | st, [] => st
  | st, d :: rest =>
    applyTransactions now (StockTransactionService.createStockTransaction now st d).2 rest

/-! Concrete fixtures used by witnesses and counterexamples. -/

/-- Scenario A input: +50 PURCHASE_RECEIVING of item I1 at location L1. -/
def inputReceive50 : CreateStockTransactionInput :=
  { itemId := "I1", locationId := "L1", changeQuantity := 50
    type := .PURCHASE_RECEIVING, userId := none, notes := none
    referenceId := none, transactionDate := none }

/-- Scenario C input: -10 SALES_SHIPMENT of item I1 at location L1. -/
def inputShip10 : CreateStockTransactionInput :=
  { itemId := "I1", locationId := "L1", changeQuantity := -10
    type := .SALES_SHIPMENT, userId := none, notes := none
    referenceId := none, transactionDate := none }

/-- A negative change carried by a stock-increasing type: the engine's
insufficient-stock guard never looks at it. -/
def inputReceiveNeg5 : CreateStockTransactionInput :=
  { itemId := "I1", locationId := "L1", changeQuantity := -5
    type := .PURCHASE_RECEIVING, userId := none, notes := none
    referenceId := none, transactionDate := none }

/-- A store holding quantity 5 of item I1 at location L1 and an empty
ledger. -/
def store5 : Store :=
  { levels := [(("I1", "L1"),
      { quantity := 5, lastRestockedAt := none, updatedAt := 0 })]
    transactions := [] }

/-- The ledger row Scenario A commits at time 0. -/
def txReceive50 : StockTransaction :=
  { itemId := "I1", locationId := "L1", changeQuantity := 50, newQuantity := 50
    type := .PURCHASE_RECEIVING, userId := none, transactionDate := 0
    notes := none, referenceId := none, createdAt := 0 }

/-- A store holding quantity 50 of item I1 at location L1, last restocked at
time 3. -/
def store50 : Store :=
  { levels := [(("I1", "L1"),
      { quantity := 50, lastRestockedAt := some 3, updatedAt := 1 })]
    transactions := [] }

/-- The ledger row the handler commits for Scenario A when user U1 is
authenticated. -/
def txReceive50U : StockTransaction :=
  { itemId := "I1", locationId := "L1", changeQuantity := 50, newQuantity := 50
    type := .PURCHASE_RECEIVING, userId := some "U1", transactionDate := 0
    notes := none, referenceId := none, createdAt := 0 }

/-- The ledger row the C1 counterexample commits: a negative change carried
by the stock-increasing type PURCHASE_RECEIVING. -/
def txReceiveNeg5 : StockTransaction :=
  { itemId := "I1", locationId := "L1", changeQuantity := -5, newQuantity := -5
    type := .PURCHASE_RECEIVING, userId := none, transactionDate := 0
    notes := none, referenceId := none, createdAt := 0 }

/-- Recognises a `low_stock_alert` event. -/
def isLowStockAlert : SocketEvent → Bool
  | .lowStockAlert _ _ _ _ _ _ => true
  | _ => false

/-- A notification environment in which the `inventory_update` emit throws. -/
def envEmitFails : NotifyEnv :=
  { emitInventoryUpdateFails := true, findItemById := .ok none
    emitLowStockFails := false }

/-- A notification environment in which nothing fails and the item re-read
returns null. -/
def envAllOkNoItem : NotifyEnv :=
  { emitInventoryUpdateFails := false, findItemById := .ok none
    emitLowStockFails := false }

/-- The level row Scenario A leaves behind at time 0. -/
def lvlReceive50 : InventoryLevel :=
  { quantity := 50, lastRestockedAt := some 0, updatedAt := 0 }

/-- The store Scenario A leaves behind at time 0. -/
def storeAfterReceive50 : Store :=
  { levels := [(("I1", "L1"), lvlReceive50)], transactions := [txReceive50] }

/-- The central invariant of the spec: every pair's stored quantity equals
the sum of its ledger changes, and the recorded resulting quantities replay
that history. -/
def ledgerLevelConsistent (st : Store) : Prop :=
  ∀ k, levelQuantity st k = sumChanges (ledgerFor st k)
    ∧ replaysFrom 0 (ledgerFor st k) = true

/-- The item of Scenario D: threshold 10. -/
def itemI1T10 : Item :=
  { id := "I1", sku := "SKU1", name := "Widget", lowStockThreshold := some 10 }

/-- A notification environment in which nothing fails and the item re-read
finds `itemI1T10`. -/
def envItemT10 : NotifyEnv :=
  { emitInventoryUpdateFails := false, findItemById := .ok (some itemI1T10)
    emitLowStockFails := false }

/-- A store holding quantity 15 of item I1 at location L1. -/
def store15 : Store :=
  { levels := [(("I1", "L1"),
      { quantity := 15, lastRestockedAt := none, updatedAt := 0 })]
    transactions := [] }

/-- Scenario D input: -7 SALES_SHIPMENT driving the quantity from 15 to 8. -/
def inputShip7 : CreateStockTransactionInput :=
  { itemId := "I1", locationId := "L1", changeQuantity := -7
    type := .SALES_SHIPMENT, userId := none, notes := none
    referenceId := none, transactionDate := none }

/-- The ledger row Scenario D commits at time 0. -/
def txShip7 : StockTransaction :=
  { itemId := "I1", locationId := "L1", changeQuantity := -7, newQuantity := 8
    type := .SALES_SHIPMENT, userId := none, transactionDate := 0
    notes := none, referenceId := none, createdAt := 0 }

/-- The level row Scenario D leaves behind. -/
def lvl8 : InventoryLevel :=
  { quantity := 8, lastRestockedAt := none, updatedAt := 0 }

/-- The store Scenario D leaves behind. -/
def storeAfterShip7 : Store :=
  { levels := [(("I1", "L1"), lvl8)], transactions := [txShip7] }

/-- A ledger row timestamped 23:59:59 of day 0 (epoch milliseconds). -/
def txLateDayD : StockTransaction :=
  { itemId := "I1", locationId := "L1", changeQuantity := 5, newQuantity := 5
    type := .PURCHASE_RECEIVING, userId := none, transactionDate := 86399000
    notes := none, referenceId := none, createdAt := 86399000 }

/-- A store whose ledger holds only `txLateDayD`. -/
def storeDayD : Store := { levels := [], transactions := [txLateDayD] }

/-- A list query for itemId I1 with both date bounds at midnight of day 0. -/
def queryDayD : GetStockTransactionsQuery :=
  { page := 1, limit := 20, itemId := some "I1", locationId := none
    userId := none, type := none, startDate := some 0, endDate := some 0
    sortBy := .transactionDate, sortOrder := .desc }

/-- The raw query string with no parameters supplied. -/
def rawEmptyQuery : RawStockTransactionsQuery :=
  { page := none, limit := none, itemId := none, locationId := none
    userId := none, type := none, startDate := none, endDate := none
    sortBy := none, sortOrder := none }

/-- The query the validator produces from `rawEmptyQuery` (all defaults). -/
def queryDefaults : GetStockTransactionsQuery :=
  { page := 1, limit := 20, itemId := none, locationId := none
    userId := none, type := none, startDate := none, endDate := none
    sortBy := .transactionDate, sortOrder := .desc }

/-- A raw query asking for 101 rows per page. -/
def rawLimit101 : RawStockTransactionsQuery :=
  { page := none, limit := some 101, itemId := none, locationId := none
    userId := none, type := none, startDate := none, endDate := none
    sortBy := none, sortOrder := none }

/-! Association-list lemmas about the shapes `inventoryLevelUpsert`
produces. -/

theorem find?_replaceAssoc_self {α β : Type} [BEq α] [LawfulBEq α]
    (l : List (α × β)) (k : α) (v : β) :
    ((replaceAssoc k v l).find? (fun p => p.1 == k)).map (·.2)
      = (l.find? (fun p => p.1 == k)).map (fun _ => v) := by
  induction l with
  | nil => rfl
  | cons p rest ih =>
    by_cases hp : p.1 = k
    · simp [replaceAssoc, List.find?_cons, hp]
    · simp [replaceAssoc, List.find?_cons, hp, ih]

theorem find?_replaceAssoc_other {α β : Type} [BEq α] [LawfulBEq α]
    (l : List (α × β)) (k k2 : α) (v : β) (h : k2 ≠ k) :
    (replaceAssoc k v l).find? (fun p => p.1 == k2)
      = l.find? (fun p => p.1 == k2) := by
  have hkk2 : (k == k2) = false := by
    simp only [beq_eq_false_iff_ne, ne_eq]
    intro hk
    exact h hk.symm
  induction l with
  | nil => rfl
  | cons p rest ih =>
    by_cases hp2 : p.1 = k2
    · have hpk : (p.1 == k) = false := by
        simp only [beq_eq_false_iff_ne, ne_eq]
        intro hk
        exact h (hp2.symm.trans hk)
      have hb2 : (p.1 == k2) = true := beq_iff_eq.mpr hp2
      simp [replaceAssoc, List.find?_cons, hpk, hb2]
    · by_cases hpk : p.1 = k
      · simp [replaceAssoc, List.find?_cons, hp2, hpk, hkk2, ih]
      · simp [replaceAssoc, List.find?_cons, hp2, hpk, ih]

theorem find?_append_single_self {α β : Type} [BEq α] [LawfulBEq α]
    (l : List (α × β)) (k : α) (v : β)
    (h : l.find? (fun p => p.1 == k) = none) :
    (l ++ [(k, v)]).find? (fun p => p.1 == k) = some (k, v) := by
  rw [List.find?_append, h]
  simp [List.find?]

theorem find?_append_single_other {α β : Type} [BEq α] [LawfulBEq α]
    (l : List (α × β)) (k k2 : α) (v : β) (h : k2 ≠ k) :
    (l ++ [(k, v)]).find? (fun p => p.1 == k2)
      = l.find? (fun p => p.1 == k2) := by
  rw [List.find?_append]
  have hk : (k == k2) = false := by
    simp
    intro hk
    exact h hk.symm
  simp [List.find?, hk]

/-! Characterization of the atomic unit: what a rejected call leaves behind
and what a committed call writes. -/

/-- A stock-decreasing change that would drive the pair's quantity below zero
makes the atomic unit throw `InsufficientStockError` before any write: the
store comes back untouched. -/
theorem stockTransactionTx_insufficient (now : Nat) (st : Store)
    (d : CreateStockTransactionInput)
    (hdec : isStockDecrease d.type = true)
    (hlow : levelQuantity st (d.itemId, d.locationId) + d.changeQuantity < 0) :
    stockTransactionTx now st d = (.error .insufficientStock, st) := by
  simp only [levelQuantity] at hlow
  simp [stockTransactionTx, prismaTransaction, stockTransactionCallback,
    hdec, hlow]

/-- Whenever the atomic unit fails, the store is rolled back to exactly its
prior state (Prisma `$transaction` semantics). -/
theorem stockTransactionTx_error_store (now : Nat) (st : Store)
    (d : CreateStockTransactionInput) (e : SvcError)
    (h : (stockTransactionTx now st d).1 = .error e) :
    (stockTransactionTx now st d).2 = st := by
  unfold stockTransactionTx prismaTransaction at h ⊢
  cases hc : stockTransactionCallback now d st with
  | ok v =>
    obtain ⟨a, st3⟩ := v
    rw [hc] at h
    simp at h
  | error e2 =>
    rfl

/-- Full description of a committed call: the level row the upsert wrote, the
ledger row appended, and the fact that no other pair's level moved. -/
theorem stockTransactionTx_ok_spec (now : Nat) (st : Store)
    (d : CreateStockTransactionInput) (tx : StockTransaction)
    (lvl : InventoryLevel) (st2 : Store)
    (h : stockTransactionTx now st d = (.ok (tx, lvl), st2)) :
    lvl = { quantity := levelQuantity st (d.itemId, d.locationId) + d.changeQuantity
            lastRestockedAt := if 0 < d.changeQuantity then some now
              else (findUniqueLevel st d.itemId d.locationId).bind (·.lastRestockedAt)
            updatedAt := now }
    ∧ tx = { itemId := d.itemId, locationId := d.locationId
             changeQuantity := d.changeQuantity
             newQuantity := lvl.quantity
             type := d.type, userId := d.userId
             transactionDate := d.transactionDate.getD now
             notes := d.notes, referenceId := d.referenceId, createdAt := now }
    ∧ st2.transactions = st.transactions ++ [tx]
    ∧ findUniqueLevel st2 d.itemId d.locationId = some lvl
    ∧ (∀ i2 l2, (i2, l2) ≠ (d.itemId, d.locationId) →
        findUniqueLevel st2 i2 l2 = findUniqueLevel st i2 l2) := by
  rcases hfind : findUniqueLevel st d.itemId d.locationId with _ | old
  all_goals
    simp only [stockTransactionTx, prismaTransaction, stockTransactionCallback,
      inventoryLevelUpsert, hfind] at h
  all_goals
    split at h
  case none.h_2 | some.h_2 =>
    simp at h
  case none.h_1 a st2' heq =>
    split at heq
    · simp at heq
    · simp only [Except.ok.injEq] at heq
      simp only [Prod.mk.injEq, Except.ok.injEq] at h
      obtain ⟨ha, hst2'⟩ := h
      subst hst2'
      subst ha
      simp only [Prod.mk.injEq] at heq
      obtain ⟨⟨htx, hlvl⟩, hstv⟩ := heq
      subst htx
      subst hlvl
      subst hstv
      refine ⟨?_, ?_, rfl, ?_, ?_⟩
      · simp [levelQuantity, hfind]
      · simp
      · have hnone : st.levels.find?
            (fun p => p.1 == (d.itemId, d.locationId)) = none := by
          have hf := hfind
          unfold findUniqueLevel at hf
          exact Option.map_eq_none'.mp hf
        unfold findUniqueLevel
        rw [find?_append_single_self _ _ _ hnone]
        rfl
      · intro i2 l2 hne
        unfold findUniqueLevel
        rw [find?_append_single_other _ _ _ _ hne]
  case some.h_1 a st2' heq =>
    split at heq
    · simp at heq
    · simp only [Except.ok.injEq] at heq
      simp only [Prod.mk.injEq, Except.ok.injEq] at h
      obtain ⟨ha, hst2'⟩ := h
      subst hst2'
      subst ha
      simp only [Prod.mk.injEq] at heq
      obtain ⟨⟨htx, hlvl⟩, hstv⟩ := heq
      subst htx
      subst hlvl
      subst hstv
      refine ⟨?_, ?_, rfl, ?_, ?_⟩
      · simp [levelQuantity, hfind]
      · simp
      · unfold findUniqueLevel
        rw [find?_replaceAssoc_self]
        have hf := hfind
        unfold findUniqueLevel at hf
        obtain ⟨p0, hp0, _⟩ := Option.map_eq_some'.mp hf
        rw [hp0]
        rfl
      · intro i2 l2 hne
        unfold findUniqueLevel
        rw [find?_replaceAssoc_other _ _ _ _ hne]

/-- Unpacking a successful plain-service call into the underlying atomic-unit
result. -/
theorem service_ok_elim (now : Nat) (st : Store)
    (d : CreateStockTransactionInput) (tx : StockTransaction)
    (h : (StockTransactionService.createStockTransaction now st d).1 = .ok tx) :
    ∃ lvl, stockTransactionTx now st d
      = (.ok (tx, lvl), (StockTransactionService.createStockTransaction now st d).2) := by
  simp only [StockTransactionService.createStockTransaction] at h ⊢
  rcases hr : stockTransactionTx now st d with ⟨res, st2⟩
  rw [hr] at h
  cases res with
  | error e => simp [Except.map] at h
  | ok v =>
    obtain ⟨tx0, lvl0⟩ := v
    simp only [Except.map, Except.ok.injEq] at h
    subst h
    exact ⟨lvl0, rfl⟩

/-- A failed plain-service call reports the error of the atomic unit. -/
theorem service_error_elim (now : Nat) (st : Store)
    (d : CreateStockTransactionInput) (e : SvcError)
    (h : (StockTransactionService.createStockTransaction now st d).1 = .error e) :
    (stockTransactionTx now st d).1 = .error e := by
  simp only [StockTransactionService.createStockTransaction] at h
  rcases hr : stockTransactionTx now st d with ⟨res, st2⟩
  rw [hr] at h
  cases res with
  | error e2 =>
    simp only [Except.map, Except.error.injEq] at h
    simp [h]
  | ok v =>
    obtain ⟨tx0, lvl0⟩ := v
    simp [Except.map] at h

/-- The quantity every pair shows after a committed plain-service call: the
touched pair moved by `changeQuantity`, every other pair is untouched. -/
theorem levelQuantity_after_ok (now : Nat) (st : Store)
    (d : CreateStockTransactionInput) (tx : StockTransaction)
    (h : (StockTransactionService.createStockTransaction now st d).1 = .ok tx)
    (k : String × String) :
    levelQuantity (StockTransactionService.createStockTransaction now st d).2 k
      = if k = (d.itemId, d.locationId)
        then levelQuantity st (d.itemId, d.locationId) + d.changeQuantity
        else levelQuantity st k := by
  obtain ⟨lvl, hr⟩ := service_ok_elim now st d tx h
  obtain ⟨hlvl, _, _, hself, hother⟩ := stockTransactionTx_ok_spec now st d tx lvl _ hr
  by_cases hk : k = (d.itemId, d.locationId)
  · subst hk
    simp [levelQuantity, hself, hlvl]
  · rw [if_neg hk, levelQuantity, levelQuantity,
      hother k.1 k.2 (by rwa [Prod.mk.eta])]

/-- C2: a `createStockTransaction` call that fails (e.g. with
InsufficientStock) leaves the store exactly as it was: the `(itemId,
locationId)` level is unchanged and no ledger row is appended — the atomic
unit commits both writes or neither. -/
theorem c2_failed_call_rolls_back (now : Nat) (st : Store)
    (d : CreateStockTransactionInput) (e : SvcError)
    (h : (StockTransactionService.createStockTransaction now st d).1 = .error e) :
    (StockTransactionService.createStockTransaction now st d).2 = st := by
  have he := service_error_elim now st d e h
  have h2 := stockTransactionTx_error_store now st d e he
  simpa [StockTransactionService.createStockTransaction] using h2

/-- C2 witness: Scenario C — starting quantity 5, a SALES_SHIPMENT of -10
fails with InsufficientStock, the store still holds quantity 5 and an empty
ledger. -/
theorem c2_failed_call_rolls_back_witness :
    (StockTransactionService.createStockTransaction 0 store5 inputShip10).1
      = Except.error SvcError.insufficientStock
    ∧ (StockTransactionService.createStockTransaction 0 store5 inputShip10).2 = store5
    ∧ levelQuantity store5 ("I1", "L1") = 5
    ∧ store5.transactions.length = 0 :=
  ⟨rfl, c2_failed_call_rolls_back 0 store5 inputShip10
      SvcError.insufficientStock rfl, rfl, rfl⟩

/-- C3: a successful `createStockTransaction` returns a ledger row whose
`newQuantity` (the spec's resultingQuantity) equals the stored quantity of
the pair — 0 when no level row existed — plus `changeQuantity`, and a
subsequent `findSpecificInventoryLevel` read of the pair sees exactly that
quantity. -/
theorem c3_resulting_quantity (now : Nat) (st : Store)
    (d : CreateStockTransactionInput) (tx : StockTransaction)
    (h : (StockTransactionService.createStockTransaction now st d).1 = .ok tx) :
    tx.newQuantity = levelQuantity st (d.itemId, d.locationId) + d.changeQuantity
    ∧ (findSpecificInventoryLevel
          (StockTransactionService.createStockTransaction now st d).2
          d.itemId d.locationId).map (·.quantity) = some tx.newQuantity := by
  obtain ⟨lvl, hr⟩ := service_ok_elim now st d tx h
  obtain ⟨hlvl, htx, _, hself, _⟩ := stockTransactionTx_ok_spec now st d tx lvl _ hr
  subst hlvl
  subst htx
  exact ⟨rfl, by simp [findSpecificInventoryLevel, hself]⟩

/-- C3 witness: Scenario A — on an empty store, +50 PURCHASE_RECEIVING
commits resultingQuantity 50 and the level then reads 50. -/
theorem c3_resulting_quantity_witness :
    (txReceive50.newQuantity
        = levelQuantity emptyStore (inputReceive50.itemId, inputReceive50.locationId)
            + inputReceive50.changeQuantity
      ∧ (findSpecificInventoryLevel
            (StockTransactionService.createStockTransaction 0 emptyStore inputReceive50).2
            inputReceive50.itemId inputReceive50.locationId).map (·.quantity)
          = some txReceive50.newQuantity)
    ∧ txReceive50.newQuantity = 50 :=
  ⟨c3_resulting_quantity 0 emptyStore inputReceive50 txReceive50 rfl, rfl⟩

/-- C8: the level row a committed call writes has `lastRestockedAt` set to
the current time iff `changeQuantity > 0` (otherwise the previous value —
`none` on creation — is carried over unchanged), while `updatedAt` is
refreshed to the current time on every mutation. -/
theorem c8_restock_touched_iff_positive (now : Nat) (st : Store)
    (d : CreateStockTransactionInput) (tx : StockTransaction)
    (h : (StockTransactionService.createStockTransaction now st d).1 = .ok tx) :
    ∃ lvl, findUniqueLevel
        (StockTransactionService.createStockTransaction now st d).2
        d.itemId d.locationId = some lvl
      ∧ lvl.lastRestockedAt = (if 0 < d.changeQuantity then some now
          else (findUniqueLevel st d.itemId d.locationId).bind (·.lastRestockedAt))
      ∧ lvl.updatedAt = now := by
  obtain ⟨lvl, hr⟩ := service_ok_elim now st d tx h
  obtain ⟨hlvl, _, _, hself, _⟩ := stockTransactionTx_ok_spec now st d tx lvl _ hr
  exact ⟨lvl, hself, by rw [hlvl], by rw [hlvl]⟩

/-- C8 witness: a -10 SALES_SHIPMENT against quantity 50 (last restocked at
time 3) keeps `lastRestockedAt` at 3 and refreshes `updatedAt` to the call
time 9. -/
theorem c8_restock_touched_iff_positive_witness :
    ∃ lvl, findUniqueLevel
        (StockTransactionService.createStockTransaction 9 store50 inputShip10).2
        inputShip10.itemId inputShip10.locationId = some lvl
      ∧ lvl.lastRestockedAt = (if 0 < inputShip10.changeQuantity then some 9
          else (findUniqueLevel store50 inputShip10.itemId
              inputShip10.locationId).bind (·.lastRestockedAt))
      ∧ lvl.updatedAt = 9 :=
  c8_restock_touched_iff_positive 9 store50 inputShip10
    { itemId := "I1", locationId := "L1", changeQuantity := -10, newQuantity := 40
      type := .SALES_SHIPMENT, userId := none, transactionDate := 9
      notes := none, referenceId := none, createdAt := 9 } rfl

/-- C10: the create-transaction handler overrides any `userId` supplied in
the request body with the authenticated caller's id before invoking the
engine — so two requests identical except for the body's `userId` behave
identically, and the committed ledger row records the authenticated
principal. -/
theorem c10_user_id_from_principal :
    (∀ (u : AuthUser) (body : CreateStockTransactionInput)
        (junk : Option String) (now : Nat) (st : Store),
      createStockTransactionHandler (some u) { body with userId := junk } now st
        = createStockTransactionHandler (some u) body now st)
    ∧ (∀ (u : AuthUser) (body : CreateStockTransactionInput) (now : Nat)
        (st : Store) (tx : StockTransaction),
        (createStockTransactionHandler (some u) body now st).1 = .ok tx →
        tx.userId = some u.id) := by
  constructor
  · intro u body junk now st
    rfl
  · intro u body now st tx h
    simp only [createStockTransactionHandler] at h
    rcases hr : (StockTransactionService.createStockTransaction now st
        { body with userId := some u.id }).1 with e | tx0
    · rw [hr] at h
      simp [Except.mapError] at h
    · rw [hr] at h
      simp only [Except.mapError, Except.ok.injEq] at h
      subst h
      obtain ⟨lvl, hr2⟩ := service_ok_elim now st _ tx0 hr
      obtain ⟨_, htx, _, _, _⟩ := stockTransactionTx_ok_spec now st _ tx0 lvl _ hr2
      subst htx
      rfl

/-- C10 witness: a body carrying userId "X" behaves exactly like one without
it, and the committed row records the authenticated user U1. -/
theorem c10_user_id_from_principal_witness :
    (createStockTransactionHandler (some ⟨"U1"⟩)
        { inputReceive50 with userId := some "X" } 0 emptyStore
      = createStockTransactionHandler (some ⟨"U1"⟩) inputReceive50 0 emptyStore)
    ∧ txReceive50U.userId = some "U1" :=
  ⟨c10_user_id_from_principal.1 ⟨"U1"⟩ inputReceive50 (some "X") 0 emptyStore,
   c10_user_id_from_principal.2 ⟨"U1"⟩ inputReceive50 0 emptyStore txReceive50U rfl⟩

/-- C1 counterexample: on an empty store, a PURCHASE_RECEIVING with
changeQuantity -5 has resulting quantity -5 < 0, yet the engine commits it
(no InsufficientStock) and the stored level goes negative — the
resulting-quantity floor is NOT enforced for all seven types. -/
theorem c1_counterexample :
    (StockTransactionService.createStockTransaction 0 emptyStore inputReceiveNeg5).1
      = Except.ok txReceiveNeg5
    ∧ levelQuantity
        (StockTransactionService.createStockTransaction 0 emptyStore inputReceiveNeg5).2
        ("I1", "L1") = -5
    ∧ levelQuantity emptyStore ("I1", "L1") + inputReceiveNeg5.changeQuantity < 0 :=
  ⟨rfl, rfl, by decide⟩

/-- One committed or rejected call keeps every level non-negative, provided
the input respects the sign convention for non-decreasing types. -/
theorem nonneg_invariant_step (now : Nat) (st : Store)
    (d : CreateStockTransactionInput)
    (hsign : isStockDecrease d.type = false → 0 ≤ d.changeQuantity)
    (hst : ∀ k, 0 ≤ levelQuantity st k) :
    ∀ k, 0 ≤ levelQuantity
        (StockTransactionService.createStockTransaction now st d).2 k := by
  intro k
  rcases hres : (StockTransactionService.createStockTransaction now st d).1 with e | tx
  · have he := service_error_elim now st d e hres
    have h2 := stockTransactionTx_error_store now st d e he
    have : (StockTransactionService.createStockTransaction now st d).2 = st := by
      simpa [StockTransactionService.createStockTransaction] using h2
    rw [this]
    exact hst k
  · rw [levelQuantity_after_ok now st d tx hres k]
    by_cases hk : k = (d.itemId, d.locationId)
    · rw [if_pos hk]
      rcases hdec : isStockDecrease d.type with _ | _
      · exact add_nonneg (hst _) (hsign hdec)
      · by_contra hneg
        push_neg at hneg
        have herr := stockTransactionTx_insufficient now st d hdec hneg
        have : (StockTransactionService.createStockTransaction now st d).1
            = .error .insufficientStock := by
          simp [StockTransactionService.createStockTransaction, herr, Except.map]
        rw [this] at hres
        simp at hres
    · rw [if_neg hk]
      exact hst k

/-- The non-negativity invariant survives any sequence of calls respecting
the sign convention. -/
theorem nonneg_invariant_applyAll (now : Nat)
    (inputs : List CreateStockTransactionInput) :
    ∀ st, (∀ d ∈ inputs, isStockDecrease d.type = false → 0 ≤ d.changeQuantity) →
    (∀ k, 0 ≤ levelQuantity st k) →
    ∀ k, 0 ≤ levelQuantity (applyTransactions now st inputs) k := by
  induction inputs with
  | nil =>
    intro st _ hst k
    exact hst k
  | cons d rest ih =>
    intro st hsign hst k
    exact ih _ (fun d2 h2 => hsign d2 (List.mem_cons_of_mem _ h2))
      (nonneg_invariant_step now st d (hsign d (List.mem_cons_self _ _)) hst) k

/-- C1 (amended): the resulting-quantity floor is enforced only for the three
stock-decreasing types — such a call whose resulting quantity would be
negative is rejected with InsufficientStock before any write.  For the other
four types no check is made, so quantities stay non-negative only under the
caller sign convention that non-decreasing types carry a non-negative
changeQuantity; under that convention every reachable level quantity is
non-negative. -/
theorem c1_amended_floor_for_decreasing_types :
    (∀ (now : Nat) (st : Store) (d : CreateStockTransactionInput),
      isStockDecrease d.type = true →
      levelQuantity st (d.itemId, d.locationId) + d.changeQuantity < 0 →
      StockTransactionService.createStockTransaction now st d
        = (.error .insufficientStock, st))
    ∧ (∀ (now : Nat) (inputs : List CreateStockTransactionInput),
        (∀ d ∈ inputs, isStockDecrease d.type = false → 0 ≤ d.changeQuantity) →
        ∀ k, 0 ≤ levelQuantity (applyTransactions now emptyStore inputs) k) := by
  constructor
  · intro now st d hdec hlow
    have herr := stockTransactionTx_insufficient now st d hdec hlow
    simp [StockTransactionService.createStockTransaction, herr, Except.map]
  · intro now inputs hsign k
    exact nonneg_invariant_applyAll now inputs emptyStore hsign
      (fun k2 => by simp [levelQuantity, findUniqueLevel, emptyStore]) k

/-- C1 amended witness: the Scenario C rejection (5 - 10 with SALES_SHIPMENT)
and the non-negativity of the level after a sign-respecting sequence. -/
theorem c1_amended_floor_for_decreasing_types_witness :
    StockTransactionService.createStockTransaction 0 store5 inputShip10
      = (Except.error SvcError.insufficientStock, store5)
    ∧ 0 ≤ levelQuantity (applyTransactions 0 emptyStore [inputReceive50]) ("I1", "L1") :=
  ⟨c1_amended_floor_for_decreasing_types.1 0 store5 inputShip10 (by decide) (by decide),
   c1_amended_floor_for_decreasing_types.2 0 [inputReceive50]
     (by
       intro d hd hfalse
       rw [List.mem_singleton] at hd
       subst hd
       decide) ("I1", "L1")⟩

/-! Ledger/level consistency machinery for C7. -/

theorem sumChanges_append (l1 l2 : List StockTransaction) :
    sumChanges (l1 ++ l2) = sumChanges l1 + sumChanges l2 := by
  simp [sumChanges]

/-- Appending one row to a replaying history: the history still replays and
the new row's `newQuantity` is the accumulated sum plus its own change. -/
theorem replaysFrom_append_single (q : Int) (l : List StockTransaction)
    (t : StockTransaction) :
    replaysFrom q (l ++ [t])
      = (replaysFrom q l
          && (t.newQuantity == q + sumChanges l + t.changeQuantity)) := by
  induction l generalizing q with
  | nil => simp [replaysFrom, sumChanges]
  | cons x l' ih =>
    simp only [List.cons_append, replaysFrom, ih]
    by_cases hx : x.newQuantity = q + x.changeQuantity
    · have hb : (x.newQuantity == q + x.changeQuantity) = true :=
        beq_iff_eq.mpr hx
      simp [hb, hx, sumChanges, add_assoc, Bool.and_assoc, ih]
    · have hb : (x.newQuantity == q + x.changeQuantity) = false := by
        simp [hx]
      simp [hb]

/-- One engine call — committed or rejected — preserves ledger/level
consistency. -/
theorem consistent_step (now : Nat) (st : Store)
    (d : CreateStockTransactionInput) (h : ledgerLevelConsistent st) :
    ledgerLevelConsistent
      (StockTransactionService.createStockTransaction now st d).2 := by
  rcases hres : (StockTransactionService.createStockTransaction now st d).1 with e | tx
  · have he := service_error_elim now st d e hres
    have h2 := stockTransactionTx_error_store now st d e he
    have hsame : (StockTransactionService.createStockTransaction now st d).2 = st := by
      simpa [StockTransactionService.createStockTransaction] using h2
    rw [hsame]
    exact h
  · obtain ⟨lvl, hr⟩ := service_ok_elim now st d tx hres
    obtain ⟨hlvl, htx, htrans, hself, hother⟩ :=
      stockTransactionTx_ok_spec now st d tx lvl _ hr
    intro k
    have hkeytx : txKey tx = (d.itemId, d.locationId) := by
      rw [htx]
      rfl
    have hledger : ledgerFor (StockTransactionService.createStockTransaction now st d).2 k
        = ledgerFor st k ++ (if (txKey tx == k) then [tx] else []) := by
      simp only [ledgerFor, htrans, List.filter_append]
      congr 1
      by_cases hkk : txKey tx = k
      · have hb : (txKey tx == k) = true := beq_iff_eq.mpr hkk
        simp [List.filter_cons, hb]
      · have hb : (txKey tx == k) = false := by
          simp [hkk]
        simp [List.filter_cons, hb]
    have hchange : tx.changeQuantity = d.changeQuantity := by
      rw [htx]
    have hnewq : tx.newQuantity
        = levelQuantity st (d.itemId, d.locationId) + d.changeQuantity := by
      rw [htx, hlvl]
    by_cases hk : k = (d.itemId, d.locationId)
    · have hbeq : (txKey tx == k) = true :=
        beq_iff_eq.mpr (hkeytx.trans hk.symm)
      constructor
      · rw [levelQuantity_after_ok now st d tx hres k, if_pos hk, hledger,
          sumChanges_append, ← hk, (h k).1]
        simp [hbeq, sumChanges, hchange]
      · rw [hledger]
        simp only [hbeq, if_true]
        rw [replaysFrom_append_single, (h k).2, Bool.true_and]
        rw [beq_iff_eq, hnewq, hchange, ← hk, (h k).1]
        ring
    · have hbeq : (txKey tx == k) = false := by
        simp only [beq_eq_false_iff_ne, ne_eq, hkeytx]
        exact fun hkk => hk hkk.symm
      constructor
      · rw [levelQuantity_after_ok now st d tx hres k, if_neg hk, hledger,
          sumChanges_append]
        simp [hbeq, (h k).1, sumChanges]
      · rw [hledger]
        simp [hbeq, (h k).2]

/-- Ledger/level consistency survives any sequence of engine calls. -/
theorem consistent_applyAll (now : Nat)
    (inputs : List CreateStockTransactionInput) :
    ∀ st, ledgerLevelConsistent st →
      ledgerLevelConsistent (applyTransactions now st inputs) := by
  induction inputs with
  | nil =>
    intro st h
    exact h
  | cons d rest ih =>
    intro st h
    exact ih _ (consistent_step now st d h)

/-- C7: starting from an empty store, after any sequence of engine calls the
stored quantity of every `(itemId, locationId)` pair equals the sum of the
`changeQuantity` values of its committed ledger rows, and each committed row's
`newQuantity` (resultingQuantity) equals the level value immediately after it
— the ledger replays to the level exactly. -/
theorem c7_ledger_level_never_diverge (now : Nat)
    (inputs : List CreateStockTransactionInput) (k : String × String) :
    levelQuantity (applyTransactions now emptyStore inputs) k
      = sumChanges (ledgerFor (applyTransactions now emptyStore inputs) k)
    ∧ replaysFrom 0 (ledgerFor (applyTransactions now emptyStore inputs) k) = true :=
  consistent_applyAll now inputs emptyStore (fun _ => ⟨rfl, rfl⟩) k

/-- C4 counterexample: with a committed transaction (the ledger row is
present) but a throwing `inventory_update` emit, the auth.service
`createStockTransaction` re-throws: the caller receives the error, not the
committed StockTransaction — notification failures are logged but NOT
swallowed. -/
theorem c4_counterexample :
    (AuthService.createStockTransaction envEmitFails 0 emptyStore inputReceive50).1
      = Except.error SvcError.notifyFailure
    ∧ (AuthService.createStockTransaction envEmitFails 0 emptyStore
        inputReceive50).2.1.transactions = [txReceive50] :=
  ⟨rfl, rfl⟩

/-- C4 (amended): a failure in the post-commit notification phase never rolls
back the committed writes — the store keeps the level upsert and the ledger
row — but the surrounding catch block re-throws it, so the caller receives an
error instead of the committed StockTransaction; only when the whole
notification phase succeeds does the caller receive the committed row. -/
theorem c4_amended_commit_survives_notify_failure
    (env : NotifyEnv) (now : Nat) (st : Store)
    (d : CreateStockTransactionInput) (tx : StockTransaction)
    (lvl : InventoryLevel) (st2 : Store)
    (h : stockTransactionTx now st d = (.ok (tx, lvl), st2)) :
    (AuthService.createStockTransaction env now st d).2.1 = st2
    ∧ ((AuthService.createStockTransaction env now st d).1 = .ok tx
        ∨ (AuthService.createStockTransaction env now st d).1
            = .error .notifyFailure)
    ∧ (env.emitInventoryUpdateFails = false →
        (∃ r, env.findItemById = .ok r) →
        env.emitLowStockFails = false →
        (AuthService.createStockTransaction env now st d).1 = .ok tx) := by
  obtain ⟨b1, fi, b2⟩ := env
  simp only [AuthService.createStockTransaction, h]
  cases b1
  · cases fi with
    | error u =>
      refine ⟨rfl, Or.inr rfl, ?_⟩
      intro _ hex _
      obtain ⟨r, hr⟩ := hex
      simp at hr
    | ok itemDetails =>
      cases itemDetails with
      | none => exact ⟨rfl, Or.inl rfl, fun _ _ _ => rfl⟩
      | some item =>
        rcases hth : item.lowStockThreshold with _ | t
        · simp only [hth]
          exact ⟨rfl, Or.inl rfl, fun _ _ _ => rfl⟩
        · simp only [hth]
          by_cases hq : lvl.quantity ≤ t
          · rw [if_pos hq]
            cases b2
            · exact ⟨rfl, Or.inl rfl, fun _ _ _ => rfl⟩
            · refine ⟨rfl, Or.inr rfl, ?_⟩
              intro _ _ hb2
              simp at hb2
          · rw [if_neg hq]
            exact ⟨rfl, Or.inl rfl, fun _ _ _ => rfl⟩
  · refine ⟨rfl, Or.inr rfl, ?_⟩
    intro hb1
    simp at hb1

/-- C4 amended witness: with no notification failure, Scenario A's caller
receives the committed row and the store holds both writes. -/
theorem c4_amended_commit_survives_notify_failure_witness :
    (AuthService.createStockTransaction envAllOkNoItem 0 emptyStore
        inputReceive50).2.1 = storeAfterReceive50
    ∧ (AuthService.createStockTransaction envAllOkNoItem 0 emptyStore
        inputReceive50).1 = Except.ok txReceive50 :=
  ⟨(c4_amended_commit_survives_notify_failure envAllOkNoItem 0 emptyStore
      inputReceive50 txReceive50 lvlReceive50 storeAfterReceive50 rfl).1,
   (c4_amended_commit_survives_notify_failure envAllOkNoItem 0 emptyStore
      inputReceive50 txReceive50 lvlReceive50 storeAfterReceive50 rfl).2.2
     rfl ⟨none, rfl⟩ rfl⟩

/-- C6: after a committed transaction, when the post-commit phase runs
without collaborator failures and the item re-read finds the item, a
`low_stock_alert` is emitted if and only if the item's threshold is defined
and the new quantity is at or below it, and the emitted event carries the
item's identity, the new quantity and the threshold. -/
theorem c6_low_stock_alert_iff (env : NotifyEnv) (now : Nat) (st : Store)
    (d : CreateStockTransactionInput) (tx : StockTransaction)
    (lvl : InventoryLevel) (st2 : Store) (item : Item)
    (h : stockTransactionTx now st d = (.ok (tx, lvl), st2))
    (h1 : env.emitInventoryUpdateFails = false)
    (h2 : env.findItemById = .ok (some item))
    (h3 : env.emitLowStockFails = false) :
    ((∃ e ∈ (AuthService.createStockTransaction env now st d).2.2,
        isLowStockAlert e = true)
      ↔ ∃ t, item.lowStockThreshold = some t ∧ tx.newQuantity ≤ t)
    ∧ (∀ t, item.lowStockThreshold = some t → tx.newQuantity ≤ t →
        SocketEvent.lowStockAlert item.id item.sku item.name d.locationId
            tx.newQuantity t
          ∈ (AuthService.createStockTransaction env now st d).2.2) := by
  obtain ⟨b1, fi, b2⟩ := env
  simp only at h1 h2 h3
  subst h1
  subst h2
  subst h3
  have hnewq : tx.newQuantity = lvl.quantity := by
    obtain ⟨_, htx, _, _, _⟩ := stockTransactionTx_ok_spec now st d tx lvl st2 h
    rw [htx]
  have hloc : tx.locationId = d.locationId := by
    obtain ⟨_, htx, _, _, _⟩ := stockTransactionTx_ok_spec now st d tx lvl st2 h
    rw [htx]
  rcases hth : item.lowStockThreshold with _ | t
  · simp [AuthService.createStockTransaction, h, hth, isLowStockAlert]
  · by_cases hq : lvl.quantity ≤ t
    · simp only [AuthService.createStockTransaction, h, hth,
        Bool.false_eq_true, if_false]
      rw [if_pos hq]
      constructor
      · constructor
        · intro _
          exact ⟨t, rfl, by rw [hnewq]; exact hq⟩
        · intro _
          exact ⟨SocketEvent.lowStockAlert item.id item.sku item.name
              tx.locationId lvl.quantity t, by simp, rfl⟩
      · intro t2 ht2 _
        rw [Option.some.injEq] at ht2
        subst ht2
        rw [hnewq, hloc]
        simp
    · simp only [AuthService.createStockTransaction, h, hth,
        Bool.false_eq_true, if_false]
      rw [if_neg hq]
      constructor
      · constructor
        · intro hex
          obtain ⟨e, he, hlow⟩ := hex
          rw [List.mem_singleton] at he
          subst he
          simp [isLowStockAlert] at hlow
        · intro hex
          obtain ⟨t2, ht2, hle⟩ := hex
          rw [Option.some.injEq] at ht2
          subst ht2
          rw [hnewq] at hle
          exact absurd hle hq
      · intro t2 ht2 hle
        rw [Option.some.injEq] at ht2
        subst ht2
        rw [hnewq] at hle
        exact absurd hle hq

/-- C6 witness: Scenario D — quantity 15 driven to 8 with threshold 10
publishes `low_stock_alert` with quantity 8 and threshold 10. -/
theorem c6_low_stock_alert_iff_witness :
    ((∃ e ∈ (AuthService.createStockTransaction envItemT10 0 store15 inputShip7).2.2,
        isLowStockAlert e = true)
      ↔ ∃ t, itemI1T10.lowStockThreshold = some t ∧ txShip7.newQuantity ≤ t)
    ∧ (∀ t, itemI1T10.lowStockThreshold = some t → txShip7.newQuantity ≤ t →
        SocketEvent.lowStockAlert itemI1T10.id itemI1T10.sku itemI1T10.name
            inputShip7.locationId txShip7.newQuantity t
          ∈ (AuthService.createStockTransaction envItemT10 0 store15 inputShip7).2.2) :=
  c6_low_stock_alert_iff envItemT10 0 store15 inputShip7 txShip7 lvl8
    storeAfterShip7 itemI1T10 rfl rfl rfl rfl

/-- C5 counterexample: with a date-only upper bound (midnight of day 0), the
`findStockTransactions` of stockTransaction.service.ts — the service the
stock-transaction routes use — applies `lte endDate` as given and returns an
empty page, excluding the day-0 transaction timestamped 23:59:59 that the
claim says must be included. -/
theorem c5_counterexample :
    (StockTransactionService.findStockTransactions storeDayD queryDayD).data = []
    ∧ queryDayD.endDate = some 0
    ∧ AuthService.isMidnight 0 = true
    ∧ txLateDayD.transactionDate < 86400000
    ∧ txLateDayD.itemId = "I1"
    ∧ txLateDayD ∈ storeDayD.transactions := by
  refine ⟨?_, rfl, rfl, by decide, rfl, ?_⟩
  · have hfilter : List.filter (matchesWhere queryDayD queryDayD.endDate)
        storeDayD.transactions = [] := by decide
    simp [StockTransactionService.findStockTransactions,
      runFindStockTransactions, hfilter]
  · simp [storeDayD]

/-- C5 (amended): only the auth.service.ts variant of
`findStockTransactions` treats a midnight upper bound as inclusive of the
whole day: it widens the bound to the last millisecond of that day, so (on a
first page large enough to hold everything) a transaction is returned iff it
passes the other filters with the widened bound — in particular every
matching day-D transaction is returned and none from day D+1. -/
theorem c5_amended_day_inclusive_in_auth_variant (st : Store)
    (q : GetStockTransactionsQuery) (e : Nat)
    (he : q.endDate = some e) (hm : AuthService.isMidnight e = true)
    (hpage : q.page = 1) (hlen : st.transactions.length ≤ q.limit) :
    (∀ tx ∈ st.transactions,
      (tx ∈ (AuthService.findStockTransactions st q).data
        ↔ matchesWhere q (some (e + 24 * 60 * 60 * 1000 - 1)) tx = true))
    ∧ (∀ tx ∈ st.transactions, e + 24 * 60 * 60 * 1000 ≤ tx.transactionDate →
        tx ∉ (AuthService.findStockTransactions st q).data) := by
  have hdata : (AuthService.findStockTransactions st q).data
      = (st.transactions.filter
          (matchesWhere q (some (e + 24 * 60 * 60 * 1000 - 1)))).mergeSort
          (sortLe q.sortBy q.sortOrder) := by
    simp only [AuthService.findStockTransactions, runFindStockTransactions,
      he, Option.map_some', hm, if_true, hpage]
    norm_num
    exact le_trans (List.length_filter_le _ _) hlen
  constructor
  · intro tx htx
    rw [hdata, List.mem_mergeSort, List.mem_filter]
    exact ⟨fun hh => hh.2, fun hh => ⟨htx, hh⟩⟩
  · intro tx htx hge hmem
    rw [hdata, List.mem_mergeSort, List.mem_filter] at hmem
    have hmatch := hmem.2
    simp [matchesWhere] at hmatch
    omega

/-- C5 amended witness: the day-0 23:59:59 transaction is returned by the
auth.service variant for the same midnight-bounded query. -/
theorem c5_amended_day_inclusive_in_auth_variant_witness :
    txLateDayD ∈ (AuthService.findStockTransactions storeDayD queryDayD).data := by
  have h := (c5_amended_day_inclusive_in_auth_variant storeDayD queryDayD 0
      rfl rfl rfl (by decide)).1 txLateDayD (by simp [storeDayD])
  exact h.mpr (by decide)

/-- `Math.ceil` of an exact division of non-negative integers coincides with
the `(a + b - 1) / b` integerization the embedding uses. -/
theorem mathCeilDiv_eq_ceil (a b : Nat) (hb : 0 < b) :
    mathCeilDiv a b = ⌈(a : ℚ) / (b : ℚ)⌉₊ := by
  have hbq : (0 : ℚ) < b := by exact_mod_cast hb
  unfold mathCeilDiv
  apply le_antisymm
  · rw [Nat.div_le_iff_le_mul_add_pred hb]
    have h1 : (a : ℚ) ≤ (⌈(a : ℚ) / b⌉₊ : ℚ) * b := by
      calc (a : ℚ) = (a : ℚ) / b * b := by field_simp
        _ ≤ (⌈(a : ℚ) / b⌉₊ : ℚ) * b :=
          mul_le_mul_of_nonneg_right (Nat.le_ceil ((a : ℚ) / b)) (le_of_lt hbq)
    have h2 : a ≤ ⌈(a : ℚ) / b⌉₊ * b := by exact_mod_cast h1
    have h2b : a ≤ b * ⌈(a : ℚ) / b⌉₊ := by
      rw [mul_comm] at h2
      exact h2
    omega
  · rw [Nat.ceil_le, div_le_iff₀ hbq]
    have h3 : a ≤ ((a + b - 1) / b) * b := by
      have hd := Nat.div_add_mod' (a + b - 1) b
      have hm : (a + b - 1) % b < b := Nat.mod_lt _ hb
      omega
    exact_mod_cast h3

/-- C9: the validator caps the page size at 100 (rejecting larger values)
with defaults page 1 and limit 20; the returned page is the sorted matching
rows with `(page - 1) * limit` skipped and at most `limit` taken; and the
response carries the total matching count together with
`totalPages = ceiling(totalCount / limit)`. -/
theorem c9_pagination_bounds :
    (∀ raw q, parseGetStockTransactionsQuery raw = .ok q →
        0 < q.page ∧ 0 < q.limit ∧ q.limit ≤ 100
        ∧ (raw.page = none → q.page = 1)
        ∧ (raw.limit = none → q.limit = 20))
    ∧ (∀ raw l, raw.limit = some l → 100 < l →
        parseGetStockTransactionsQuery raw = .error ())
    ∧ (∀ st q,
        (StockTransactionService.findStockTransactions st q).data
          = (((st.transactions.filter (matchesWhere q q.endDate)).mergeSort
                (sortLe q.sortBy q.sortOrder)).drop ((q.page - 1) * q.limit)).take q.limit
        ∧ (StockTransactionService.findStockTransactions st q).data.length ≤ q.limit
        ∧ (StockTransactionService.findStockTransactions st q).totalCount
            = (st.transactions.filter (matchesWhere q q.endDate)).length)
    ∧ (∀ st q, 0 < q.limit →
        (StockTransactionService.findStockTransactions st q).totalPages
          = ⌈((StockTransactionService.findStockTransactions st q).totalCount : ℚ)
              / (q.limit : ℚ)⌉₊) := by
  refine ⟨?_, ?_, ?_, ?_⟩
  · intro raw q h
    simp only [parseGetStockTransactionsQuery] at h
    split at h
    · next hcond =>
      simp only [Except.ok.injEq] at h
      subst h
      simp only [Bool.and_eq_true] at hcond
      obtain ⟨⟨hp, hl⟩, hr⟩ := hcond
      refine ⟨?_, ?_, ?_, ?_, ?_⟩
      · rcases hrp : raw.page with _ | p
        · simp [hrp]
        · rw [hrp] at hp
          simp only [decide_eq_true_eq] at hp
          simpa [hrp] using hp
      · rcases hrl : raw.limit with _ | l
        · simp [hrl]
        · rw [hrl] at hl
          simp only [Bool.and_eq_true, decide_eq_true_eq] at hl
          simpa [hrl] using hl.1
      · rcases hrl : raw.limit with _ | l
        · simp [hrl]
        · rw [hrl] at hl
          simp only [Bool.and_eq_true, decide_eq_true_eq] at hl
          simpa [hrl] using hl.2
      · intro hrp
        simp [hrp]
      · intro hrl
        simp [hrl]
    · simp at h
  · intro raw l hl hgt
    have hnot : ¬ (l ≤ 100) := by omega
    simp [parseGetStockTransactionsQuery, hl, hnot]
  · intro st q
    refine ⟨rfl, ?_, rfl⟩
    simp only [StockTransactionService.findStockTransactions,
      runFindStockTransactions, List.length_take]
    exact min_le_left _ _
  · intro st q hlim
    exact mathCeilDiv_eq_ceil _ _ hlim

/-- C9 witness: the defaults parse, a limit of 101 is rejected, and the
concrete day-D query carries the ceiling page count. -/
theorem c9_pagination_bounds_witness :
    (0 < queryDefaults.page ∧ 0 < queryDefaults.limit ∧ queryDefaults.limit ≤ 100
      ∧ (rawEmptyQuery.page = none → queryDefaults.page = 1)
      ∧ (rawEmptyQuery.limit = none → queryDefaults.limit = 20))
    ∧ parseGetStockTransactionsQuery rawLimit101 = .error ()
    ∧ (StockTransactionService.findStockTransactions storeDayD queryDayD).totalPages
      = ⌈((StockTransactionService.findStockTransactions storeDayD queryDayD).totalCount : ℚ)
          / (queryDayD.limit : ℚ)⌉₊ :=
  ⟨c9_pagination_bounds.1 rawEmptyQuery queryDefaults rfl,
   c9_pagination_bounds.2.1 rawLimit101 101 rfl (by decide),
   c9_pagination_bounds.2.2.2 storeDayD queryDayD (by decide)⟩

end IMS
